import Mathlib

/-!
Verification of the log-event capture and level-gated dispatch pipeline of the
slog-dtrace crate (src/lib.rs), shallowly embedded in Lean.

Embedding conventions:
* `serde_json::Map<String, Value>` (the default `BTreeMap` flavour) is modelled by
  `JsonMap`, a list of entries kept sorted by key; `insert` replaces the value held
  at an existing key, exactly as `BTreeMap::insert` does.
* `serde_json::Value` is modelled by `JsonValue`, restricted to the scalar forms the
  serializer in this crate can produce (null, bool, number, string).  Numbers follow
  serde_json's internal `N` type: a non-negative integer, a negative integer, or a
  float.  Conversions mirror serde_json's `From` impls: unsigned integers become
  `posInt`; signed integers become `negInt` when negative and `posInt` otherwise;
  floats go through `Number::from_f64`, which yields a number for finite inputs and
  makes `Value::from` return `Value::Null` for NaN and the infinities.
* Rust machine integers carry no arithmetic in this code (values are passed through
  to the map), so `u8 .. usize` payloads are carried as `Nat` and `i8 .. isize`
  payloads as `Int`; the width only names the originating `emit_*` method.
* IEEE-754 float payloads are modelled by `F64Val`: either `finite q` carrying the
  exact (dyadic, here rational) value of a finite double, or one of the non-finite
  classes `nan`, `posInf`, `negInf`.  The only float operation the code performs is
  serde_json's `is_finite` classification, which this model represents exactly.
* The `.unwrap()` inside the `impl_emit!`-generated methods is modelled by `Option`:
  `none` is a panic, `some` is normal return.  Fallibility of a `slog::KV` is
  modelled by `KVItem.fail`: a key-value source may abort serialization with a
  `slog::Error` (carried here as its rendered `Display` string).
* `Utc::now()` is modelled by passing the sampled timestamp as an explicit argument.
* The external usdt probe facility is modelled by an `enabled : Channel → Bool`
  predicate (state owned by the facility, read-only here) and by recording fired
  payloads; the per-probe macro `probes::<level>_!(|| ...)` checks `enabled` first
  and only then runs the deferred builder closure, which the model counts.
-/

namespace SlogDtrace

/-- The internal number representation of `serde_json::Value::Number`. -/
inductive JNumber where
  | posInt (n : Nat)
  | negInt (n : Int)
  | float (q : ℚ)
deriving DecidableEq

/-- The JSON values producible by this crate's serializer (scalars only). -/
inductive JsonValue where
  | null
  | bool (b : Bool)
  | num (n : JNumber)
  | str (s : String)
deriving DecidableEq

/-- Sorted-insert into the entry list; an existing key keeps its position and has
its value replaced, as `BTreeMap::insert` does. -/
def insertEntry : List (String × JsonValue) → String → JsonValue → List (String × JsonValue)
  | [], k, v => [(k, v)]
  | (k2, v2) :: rest, k, v =>
    if k = k2 then (k, v) :: rest
    else if k < k2 then (k, v) :: (k2, v2) :: rest
    else (k2, v2) :: insertEntry rest k v

/-- Lookup of the value stored at a key. -/
def lookupEntry : List (String × JsonValue) → String → Option JsonValue
  | [], _ => none
  | (k2, v2) :: rest, k => if k2 = k then some v2 else lookupEntry rest k

/-- The `JsonMap` type alias of the crate: `serde_json::Map<String, Value>`. -/
structure JsonMap where
  entries : List (String × JsonValue)
deriving DecidableEq

/-- Map insertion (replaces the value at an existing key). -/
def JsonMap.insert (m : JsonMap) (k : String) (v : JsonValue) : JsonMap :=
  JsonMap.mk (insertEntry m.entries k v)

/-- Map lookup. -/
def JsonMap.lookup (m : JsonMap) (k : String) : Option JsonValue :=
  lookupEntry m.entries k

/-- The empty map, `JsonMap::default()`. -/
def JsonMap.default : JsonMap := JsonMap.mk []

/-- Classification of an IEEE-754 double: the exact value of a finite double, or
one of the non-finite classes.  The 32-bit floats of `emit_f32` are widened to
doubles losslessly by `value as f64` before conversion, so they share this model. -/
inductive F64Val where
  | finite (q : ℚ)
  | nan
  | posInf
  | negInf
deriving DecidableEq

/-- The value types of the fourteen `impl_emit!`-generated methods of
`impl slog::Serializer for Serializer` (`emit_u8` .. `emit_str`). -/
inductive TypedVal where
  | u8 (n : Nat)
  | u16 (n : Nat)
  | u32 (n : Nat)
  | u64 (n : Nat)
  | usize (n : Nat)
  | i8 (n : Int)
  | i16 (n : Int)
  | i32 (n : Int)
  | i64 (n : Int)
  | isize (n : Int)
  | boolV (b : Bool)
  | f32 (v : F64Val)
  | f64 (v : F64Val)
  | strV (s : String)
deriving DecidableEq

/-- The `Into<serde_json::Value>` conversion applied by `Serializer::emit`:
unsigned integers and non-negative signed integers become `posInt`, negative
signed integers become `negInt`, booleans and strings map to their JSON forms,
and floats go through `Number::from_f64`, which sends every non-finite double to
`Value::Null`. -/
def TypedVal.toJsonValue : TypedVal → JsonValue
  | .u8 n | .u16 n | .u32 n | .u64 n | .usize n => .num (.posInt n)
  | .i8 n | .i16 n | .i32 n | .i64 n | .isize n =>
    if n < 0 then .num (.negInt n) else .num (.posInt n.toNat)
  | .boolV b => .bool b
  | .f32 v | .f64 v =>
    match v with
    | .finite q => .num (.float q)
    | .nan | .posInf | .negInf => .null
  | .strV s => .str s

/-- An attribute value as deliverable through the `slog::Serializer` trait:
one of the typed scalar emissions, `emit_unit`, `emit_none`, or
`emit_arguments` carrying the pre-rendered format string. -/
inductive AttributeValue where
  | typed (tv : TypedVal)
  | unitV
  | noneV
  | args (text : String)
deriving DecidableEq

/-- The JSON value each serializer arm inserts for an attribute: typed values use
their `Into<Value>` conversion, `emit_unit` inserts `().into()` which is
`Value::Null`, `emit_none` inserts `Value::Null` directly, and `emit_arguments`
inserts the formatted text as a string. -/
def AttributeValue.attrJson : AttributeValue → JsonValue
  | .typed tv => tv.toJsonValue
  | .unitV => .null
  | .noneV => .null
  | .args t => .str t

/-- A `slog::Error`, carried as its rendered `Display` description, which is all
`create_dtrace_message` uses of it (`format!("{}", e)` is modelled as
`description` itself). -/
structure SlogError where
  description : String
deriving DecidableEq

/-- One step a `slog::KV` implementation takes against the serializer: emit one
named value, or abort with an error.  The crate's own serializer methods never
error, but the `KV` trait allows the source of the pairs to fail. -/
inductive KVItem where
  | kv (key : String) (value : AttributeValue)
  | fail (e : SlogError)
deriving DecidableEq

/-- The `Serializer` struct of the crate: a wrapper around an accumulating
`JsonMap`. -/
structure Serializer where
  map : JsonMap
deriving DecidableEq

/-- `Serializer::default()`. -/
def Serializer.defaultS : Serializer := Serializer.mk JsonMap.default

/-- The private generic `Serializer::emit`: inserts the converted value and
unconditionally returns `Ok(())`. -/
def Serializer.emit (s : Serializer) (key : String) (value : JsonValue) :
    Serializer × Except SlogError Unit :=
  (Serializer.mk (s.map.insert key value), Except.ok ())

/-- One `impl_emit!`-generated method: `self.emit(key, value).unwrap(); Ok(())`.
The `Option` layer models the `unwrap`: `none` is a panic, taken when `emit`
returns an error. -/
def Serializer.emitTyped (s : Serializer) (key : String) (tv : TypedVal) :
    Option (Serializer × Except SlogError Unit) :=
  match Serializer.emit s key tv.toJsonValue with
  | (s2, Except.ok _) => some (s2, Except.ok ())
  | (_, Except.error _) => none

/-- The `emit_arguments` method: inserts the formatted text and returns `Ok(())`. -/
def Serializer.emitArguments (s : Serializer) (key : String) (text : String) :
    Serializer × Except SlogError Unit :=
  (Serializer.mk (s.map.insert key (JsonValue.str text)), Except.ok ())

/-- The `emit_unit` method: `self.emit(key, ())`, where `().into()` is
`Value::Null`; returns whatever `emit` returns. -/
def Serializer.emitUnit (s : Serializer) (key : String) :
    Serializer × Except SlogError Unit :=
  Serializer.emit s key JsonValue.null

/-- The `emit_none` method: inserts `Value::Null` and returns `Ok(())`. -/
def Serializer.emitNone (s : Serializer) (key : String) :
    Serializer × Except SlogError Unit :=
  (Serializer.mk (s.map.insert key JsonValue.null), Except.ok ())

/-- Dispatch of one `KVItem` to the serializer method the `slog::Serializer`
impl provides for it. -/
def serializeItem (s : Serializer) : KVItem → Option (Serializer × Except SlogError Unit)
  | KVItem.kv key (AttributeValue.typed tv) => Serializer.emitTyped s key tv
  | KVItem.kv key AttributeValue.unitV => some (Serializer.emitUnit s key)
  | KVItem.kv key AttributeValue.noneV => some (Serializer.emitNone s key)
  | KVItem.kv key (AttributeValue.args t) => some (Serializer.emitArguments s key t)
  | KVItem.fail e => some (s, Except.error e)

/-- Serialization of a `slog::KV` source (a sequence of emissions) through the
serializer: each emission is processed in order; an error aborts the rest, as the
error-propagating `?` of a `KV::serialize` implementation does. -/
def serializeKV : List KVItem → Serializer → Option (Except SlogError Serializer)
  | [], s => some (Except.ok s)
  | item :: rest, s =>
    match serializeItem s item with
    | none => none
    | some (s2, Except.ok _) => serializeKV rest s2
    | some (_, Except.error e) => some (Except.error e)

/-- The six `slog::Level`s. -/
inductive Level where
  | trace
  | debug
  | info
  | warning
  | error
  | critical
deriving DecidableEq

/-- The `slog::Level::as_str` table of the slog crate
(`LOG_LEVEL_NAMES`): the full upper-case level names. -/
def Level.as_str : Level → String
  | .trace => "TRACE"
  | .debug => "DEBUG"
  | .info => "INFO"
  | .warning => "WARN"
  | .error => "ERROR"
  | .critical => "CRITICAL"

/-- The `Location` struct of the crate. -/
structure Location where
  module : String
  file : String
  line : Nat
deriving DecidableEq

/-- The `Message` struct of the crate; the timestamp is the sampled
`DateTime<Utc>` instant, carried abstractly as an integer. -/
structure Message where
  location : Location
  level : String
  timestamp : Int
  message : String
  kv : JsonMap
deriving DecidableEq

/-- A `slog::Record`: the static call-site data, the level, the rendered
message text, and the event-local key-value pairs in the order `record.kv()`
serializes them. -/
structure Record where
  module : String
  file : String
  line : Nat
  level : Level
  msg : String
  kvItems : List KVItem
deriving DecidableEq

/-- A `slog::OwnedKVList`: the inherited logger-context key-value pairs,
flattened in the order `values.serialize` emits them. -/
structure OwnedKVList where
  items : List KVItem
deriving DecidableEq

/-- The serialization chain of `create_dtrace_message`:
`record.kv().serialize(record, &mut serializer).and_then(|_| values.serialize(record, &mut serializer))`,
starting from `Serializer::default()`.  The event-local pairs are serialized
first, then the inherited context pairs into the same map. -/
def serializeAll (record : Record) (values : OwnedKVList) :
    Option (Except SlogError Serializer) :=
  match serializeKV record.kvItems Serializer.defaultS with
  | none => none
  | some (Except.ok s1) => serializeKV values.items s1
  | some (Except.error e) => some (Except.error e)

/-- The replacement map built in the error arm of `create_dtrace_message`:
a fresh map holding only `err → format!("{}", e)`. -/
def errMap (e : SlogError) : JsonMap :=
  JsonMap.default.insert "err" (JsonValue.str e.description)

/-- The `create_dtrace_message` function: build the `Location`, run the
serialization chain, and package the `Message`; if the chain failed, the kv map
is replaced wholesale by the single-entry `errMap`.  The `Option` layer
propagates the (never-occurring) panic of the typed emit methods. -/
def create_dtrace_message (now : Int) (record : Record) (values : OwnedKVList) :
    Option Message :=
  match serializeAll record values with
  | none => none
  | some r =>
    some (Message.mk
      (Location.mk record.module record.file record.line)
      (Level.as_str record.level)
      now
      record.msg
      (match r with
       | Except.ok s => s.map
       | Except.error e => errMap e))

/-- The six USDT probes declared in the `probes` provider module, one per level. -/
inductive Channel where
  | trace
  | debug
  | info
  | warn
  | error
  | critical
deriving DecidableEq

/-- The level-to-probe correspondence of the `match record.level()` in
`Dtrace::log`. -/
def channelOf : Level → Channel
  | .trace => .trace
  | .debug => .debug
  | .info => .info
  | .warning => .warn
  | .error => .error
  | .critical => .critical

/-- The uninhabited `slog::Never` error type. -/
inductive SlogNever where
deriving DecidableEq

instance {ε α : Type} [DecidableEq ε] [DecidableEq α] : DecidableEq (Except ε α) := fun a b =>
  match a, b with
  | Except.ok x, Except.ok y =>
    if h : x = y then isTrue (by rw [h]) else isFalse (by intro hh; cases hh; exact h rfl)
  | Except.error x, Except.error y =>
    if h : x = y then isTrue (by rw [h]) else isFalse (by intro hh; cases hh; exact h rfl)
  | Except.ok _, Except.error _ => isFalse (by intro h; cases h)
  | Except.error _, Except.ok _ => isFalse (by intro h; cases h)

/-- Observable outcome of one `Dtrace::log` call: the probe payloads fired (with
their channel), how many times the deferred builder closure ran, and the value
returned to the caller. -/
structure LogOutput where
  fired : List (Channel × Message)
  builderCalls : Nat
  result : Except SlogNever Unit
deriving DecidableEq

/-- The usdt probe macro `probes::<channel>_!(|| builder())`: query the
externally-owned enabled state of the channel; when disabled do nothing at all;
when enabled run the deferred builder closure once and fire the probe with the
produced message. -/
def probeFireGate (enabled : Channel → Bool) (c : Channel)
    (builder : Unit → Option Message) : Option (List (Channel × Message) × Nat) :=
  if enabled c then
    match builder () with
    | some m => some ([(c, m)], 1)
    | none => none
  else some ([], 0)

/-- The `Dtrace` drain struct (its only field is `PhantomData`, so it carries no
data). -/
inductive Dtrace where
  | mk
deriving DecidableEq

/-- The `Drain::log` implementation for `Dtrace`: match on the record's level,
invoke that level's probe macro with the deferred
`|| create_dtrace_message(record, values)` closure, then return `Ok(())`. -/
def Dtrace.log (_self : Dtrace) (enabled : Channel → Bool) (now : Int)
    (record : Record) (values : OwnedKVList) : Option LogOutput :=
  match
    (match record.level with
     | Level.trace =>
       probeFireGate enabled Channel.trace (fun _ => create_dtrace_message now record values)
     | Level.debug =>
       probeFireGate enabled Channel.debug (fun _ => create_dtrace_message now record values)
     | Level.info =>
       probeFireGate enabled Channel.info (fun _ => create_dtrace_message now record values)
     | Level.warning =>
       probeFireGate enabled Channel.warn (fun _ => create_dtrace_message now record values)
     | Level.error =>
       probeFireGate enabled Channel.error (fun _ => create_dtrace_message now record values)
     | Level.critical =>
       probeFireGate enabled Channel.critical (fun _ => create_dtrace_message now record values))
  with
  | none => none
  | some (fired, calls) => some (LogOutput.mk fired calls (Except.ok ()))

/-- The `ProbeRegistration` enum of the crate. -/
inductive ProbeRegistration where
  | Success
  | Failed (reason : String)
deriving DecidableEq

/-- `Dtrace::new`: run `usdt::register_probes()` (an external call, modelled by
its outcome passed as an argument, the error already rendered by `to_string`),
convert the outcome into a `ProbeRegistration`, and return the drain paired with
it.  Construction never fails. -/
def Dtrace.new (regResult : Except String Unit) : Dtrace × ProbeRegistration :=
  (Dtrace.mk,
   match regResult with
   | Except.ok _ => ProbeRegistration.Success
   | Except.error e => ProbeRegistration.Failed e)

/-- The `slog::Duplicate` pair of drains (a tuple struct in slog). -/
structure Duplicate (A B : Type) where
  d0 : A
  d1 : B

/-- The `with_drain` constructor: build a fresh `Dtrace` drain and pair the
given drain with it in a `slog::Duplicate`, returning the registration outcome
alongside. -/
def with_drain {D : Type} (drain : D) (regResult : Except String Unit) :
    Duplicate D Dtrace × ProbeRegistration :=
  match Dtrace.new regResult with
  | (d, registration) => (Duplicate.mk drain d, registration)

/-- The `Drain::log` implementation of `slog::Duplicate`, specialised to a
wrapped drain of abstract behaviour `logA` in the first slot and the `Dtrace`
drain in the second: both sub-drains receive the same record and values, and
both results are returned. -/
def Duplicate.logWith {A R : Type} (dup : Duplicate A Dtrace)
    (logA : A → Record → OwnedKVList → R) (enabled : Channel → Bool) (now : Int)
    (record : Record) (values : OwnedKVList) : R × Option LogOutput :=
  (logA dup.d0 record values, Dtrace.log dup.d1 enabled now record values)

/-! Derived notions used to state the claims, and supporting lemmas. -/

/-- Whether a `KVItem` is the failing step. -/
def KVItem.isFail : KVItem → Bool
  | KVItem.kv _ _ => false
  | KVItem.fail _ => true

/-- A key-value source that never aborts serialization. -/
def noFail (items : List KVItem) : Bool :=
  items.all (fun it => ! KVItem.isFail it)

/-- The pure effect of a sequence of successful emissions on the map: each emit
inserts its converted value under its key, in order. -/
def applyItems : List KVItem → JsonMap → JsonMap
  | [], m => m
  | KVItem.kv k v :: rest, m => applyItems rest (m.insert k v.attrJson)
  | KVItem.fail _ :: rest, m => applyItems rest m

/-- The value of the last emission of a key within an item sequence, if any. -/
def lastEmit : List KVItem → String → Option AttributeValue
  | [], _ => none
  | KVItem.kv k2 v :: rest, k =>
    (match lastEmit rest k with
     | some w => some w
     | none => if k2 = k then some v else none)
  | KVItem.fail _ :: rest, k => lastEmit rest k

/-- The rational value denoted by a JSON number. -/
def JNumber.toRat : JNumber → ℚ
  | .posInt n => (n : ℚ)
  | .negInt n => (n : ℚ)
  | .float q => q

/-- The mathematical content of an attribute value: a number, a boolean, a
string, or one of the non-finite float classes that have no JSON counterpart. -/
inductive SemVal where
  | q (x : ℚ)
  | b (x : Bool)
  | s (x : String)
  | notANumber
  | plusInfinity
  | minusInfinity
deriving DecidableEq

/-- The mathematical content of a float payload. -/
def F64Val.sem : F64Val → SemVal
  | .finite x => SemVal.q x
  | .nan => SemVal.notANumber
  | .posInf => SemVal.plusInfinity
  | .negInf => SemVal.minusInfinity

/-- Stated from the spec's round-trip clause: the value a decoder should find
if the serialized form is to be "equal to the original" — the exact numeric
value of any integer of any width and of any float, the boolean, the string. -/
def TypedVal.specSem : TypedVal → SemVal
  | .u8 n | .u16 n | .u32 n | .u64 n | .usize n => SemVal.q (n : ℚ)
  | .i8 n | .i16 n | .i32 n | .i64 n | .isize n => SemVal.q (n : ℚ)
  | .boolV b => SemVal.b b
  | .f32 v | .f64 v => F64Val.sem v
  | .strV s => SemVal.s s

/-- Whether any float payload of the value is finite (vacuously true for
non-float variants). -/
def TypedVal.floatFinite : TypedVal → Bool
  | .f32 (F64Val.finite _) | .f64 (F64Val.finite _) => true
  | .f32 _ | .f64 _ => false
  | _ => true

/-- Decoding a canonical JSON scalar back into its mathematical content; `null`
carries none. -/
def jsonSem : JsonValue → Option SemVal
  | JsonValue.null => none
  | JsonValue.bool b => some (SemVal.b b)
  | JsonValue.num n => some (SemVal.q n.toRat)
  | JsonValue.str s => some (SemVal.s s)

theorem lookupEntry_insertEntry_self (l : List (String × JsonValue)) (k : String)
    (v : JsonValue) : lookupEntry (insertEntry l k v) k = some v := by
  induction l with
  | nil => simp [insertEntry, lookupEntry]
  | cons p rest ih =>
    obtain ⟨k2, v2⟩ := p
    by_cases h2 : k = k2
    · subst h2
      simp [insertEntry, lookupEntry]
    · by_cases h1 : k < k2
      · simp [insertEntry, lookupEntry, h1, h2]
      · have h3 : k2 ≠ k := fun hh => h2 hh.symm
        simp [insertEntry, lookupEntry, h1, h2, h3, ih]

theorem lookupEntry_insertEntry_ne (l : List (String × JsonValue)) (j k : String)
    (v : JsonValue) (hne : j ≠ k) :
    lookupEntry (insertEntry l j v) k = lookupEntry l k := by
  induction l with
  | nil => simp [insertEntry, lookupEntry, hne]
  | cons p rest ih =>
    obtain ⟨k2, v2⟩ := p
    by_cases h2 : j = k2
    · subst h2
      simp [insertEntry, lookupEntry, hne]
    · by_cases h1 : j < k2
      · simp [insertEntry, lookupEntry, h1, h2, hne]
      · by_cases h4 : k2 = k
        · subst h4
          simp [insertEntry, lookupEntry, h1, h2]
        · simp [insertEntry, lookupEntry, h1, h2, h4, ih]

theorem JsonMap.lookup_insert_self (m : JsonMap) (k : String) (v : JsonValue) :
    (m.insert k v).lookup k = some v :=
  lookupEntry_insertEntry_self m.entries k v

theorem JsonMap.lookup_insert_ne (m : JsonMap) (j k : String) (v : JsonValue)
    (hne : j ≠ k) : (m.insert j v).lookup k = m.lookup k :=
  lookupEntry_insertEntry_ne m.entries j k v hne

/-- The typed emit methods never panic and return the serializer with the key
inserted, paired with success. -/
theorem emitTyped_eq (s : Serializer) (key : String) (tv : TypedVal) :
    Serializer.emitTyped s key tv =
      some (Serializer.mk (s.map.insert key tv.toJsonValue), Except.ok ()) := rfl

/-- If no item can fail, the serialization of a sequence succeeds and the
resulting map is the in-order application of the emissions. -/
theorem serializeKV_of_noFail (items : List KVItem) (s : Serializer)
    (h : noFail items = true) :
    serializeKV items s = some (Except.ok (Serializer.mk (applyItems items s.map))) := by
  induction items generalizing s with
  | nil => simp [serializeKV, applyItems]
  | cons item rest ih =>
    have hrest : noFail rest = true := by
      simp only [noFail, List.all_cons, Bool.and_eq_true] at h
      exact h.2
    cases item with
    | kv key value =>
      cases value with
      | typed tv =>
        simp [serializeKV, serializeItem, emitTyped_eq, applyItems,
          AttributeValue.attrJson, ih _ hrest]
      | unitV =>
        simp [serializeKV, serializeItem, Serializer.emitUnit, Serializer.emit,
          applyItems, AttributeValue.attrJson, ih _ hrest]
      | noneV =>
        simp [serializeKV, serializeItem, Serializer.emitNone, applyItems,
          AttributeValue.attrJson, ih _ hrest]
      | args t =>
        simp [serializeKV, serializeItem, Serializer.emitArguments, applyItems,
          AttributeValue.attrJson, ih _ hrest]
    | fail e =>
      simp [noFail, List.all_cons, KVItem.isFail] at h

/-- Looking up a key after applying a sequence of emissions finds the last
emission of that key, or falls back to the prior map. -/
theorem lookup_applyItems (items : List KVItem) (m : JsonMap) (k : String) :
    (applyItems items m).lookup k =
      (match lastEmit items k with
       | some v => some v.attrJson
       | none => m.lookup k) := by
  induction items generalizing m with
  | nil => simp [applyItems, lastEmit]
  | cons item rest ih =>
    cases item with
    | kv k2 v =>
      rw [applyItems, ih, lastEmit]
      cases hrest : lastEmit rest k with
      | some w => simp
      | none =>
        by_cases h2 : k2 = k
        · subst h2
          simp [JsonMap.lookup_insert_self]
        · simp [h2, JsonMap.lookup_insert_ne m k2 k _ h2]
    | fail e =>
      rw [applyItems, ih, lastEmit]

/-- Serializing one item never panics. -/
theorem serializeItem_isSome (s : Serializer) (item : KVItem) :
    ∃ p, serializeItem s item = some p := by
  cases item with
  | kv key value =>
    cases value with
    | typed tv => exact ⟨_, emitTyped_eq s key tv⟩
    | unitV => exact ⟨_, rfl⟩
    | noneV => exact ⟨_, rfl⟩
    | args t => exact ⟨_, rfl⟩
  | fail e => exact ⟨_, rfl⟩

/-- Serializing a sequence never panics. -/
theorem serializeKV_isSome (items : List KVItem) (s : Serializer) :
    ∃ r, serializeKV items s = some r := by
  induction items generalizing s with
  | nil => exact ⟨_, rfl⟩
  | cons item rest ih =>
    obtain ⟨⟨s2, res⟩, hp⟩ := serializeItem_isSome s item
    cases res with
    | ok u => exact (ih s2).imp (fun r hr => by simp [serializeKV, hp, hr])
    | error e => exact ⟨Except.error e, by simp [serializeKV, hp]⟩

/-- The full serialization chain never panics. -/
theorem serializeAll_isSome (record : Record) (values : OwnedKVList) :
    ∃ r, serializeAll record values = some r := by
  obtain ⟨r1, h1⟩ := serializeKV_isSome record.kvItems Serializer.defaultS
  cases r1 with
  | ok s1 =>
    obtain ⟨r2, h2⟩ := serializeKV_isSome values.items s1
    exact ⟨r2, by simp [serializeAll, h1, h2]⟩
  | error e => exact ⟨Except.error e, by simp [serializeAll, h1]⟩

/-- Building the message never panics: it always produces a `Message` whose
location, level, timestamp and text come straight from the record. -/
theorem create_isSome (now : Int) (record : Record) (values : OwnedKVList) :
    ∃ m, create_dtrace_message now record values = some m ∧
      m.location = Location.mk record.module record.file record.line ∧
      m.level = Level.as_str record.level ∧
      m.timestamp = now ∧ m.message = record.msg := by
  obtain ⟨r, hr⟩ := serializeAll_isSome record values
  cases r with
  | ok s =>
    exact ⟨Message.mk (Location.mk record.module record.file record.line)
      (Level.as_str record.level) now record.msg s.map,
      by simp [create_dtrace_message, hr], rfl, rfl, rfl, rfl⟩
  | error e =>
    exact ⟨Message.mk (Location.mk record.module record.file record.line)
      (Level.as_str record.level) now record.msg (errMap e),
      by simp [create_dtrace_message, hr], rfl, rfl, rfl, rfl⟩

/-- Full description of one `Dtrace::log` call: the builder runs and its message
is fired on the record's own channel exactly when that channel is enabled;
nothing happens otherwise; the call returns `Ok(())` either way. -/
theorem log_eq (d : Dtrace) (enabled : Channel → Bool) (now : Int)
    (record : Record) (values : OwnedKVList) :
    ∃ msg, create_dtrace_message now record values = some msg ∧
      Dtrace.log d enabled now record values =
        some (LogOutput.mk
          (if enabled (channelOf record.level) = true
            then [(channelOf record.level, msg)] else [])
          (if enabled (channelOf record.level) = true then 1 else 0)
          (Except.ok ())) := by
  obtain ⟨msg, hmsg, -⟩ := create_isSome now record values
  refine ⟨msg, hmsg, ?_⟩
  obtain ⟨mo, fi, li, lv, mtext, kvs⟩ := record
  cases lv
  case trace =>
    by_cases h : enabled Channel.trace = true <;>
      simp [Dtrace.log, channelOf, probeFireGate, hmsg, h]
  case debug =>
    by_cases h : enabled Channel.debug = true <;>
      simp [Dtrace.log, channelOf, probeFireGate, hmsg, h]
  case info =>
    by_cases h : enabled Channel.info = true <;>
      simp [Dtrace.log, channelOf, probeFireGate, hmsg, h]
  case warning =>
    by_cases h : enabled Channel.warn = true <;>
      simp [Dtrace.log, channelOf, probeFireGate, hmsg, h]
  case error =>
    by_cases h : enabled Channel.error = true <;>
      simp [Dtrace.log, channelOf, probeFireGate, hmsg, h]
  case critical =>
    by_cases h : enabled Channel.critical = true <;>
      simp [Dtrace.log, channelOf, probeFireGate, hmsg, h]

/-! Claim theorems. -/

/-- C1 counterexample: a record attribute and a context attribute share the name
`dup`; the Message's kv map holds the context value, not the event-local one,
because `create_dtrace_message` serializes `record.kv()` first and `values`
second, and the later map insertion wins. -/
theorem c1_counterexample :
    Option.bind
      (create_dtrace_message 0
        (Record.mk "m" "f" 1 Level.info "msg"
          [KVItem.kv "dup" (AttributeValue.typed (TypedVal.strV "event"))])
        (OwnedKVList.mk
          [KVItem.kv "dup" (AttributeValue.typed (TypedVal.strV "context"))]))
      (fun m => m.kv.lookup "dup") = some (JsonValue.str "context") ∧
    JsonValue.str "context" ≠ JsonValue.str "event" := by
  constructor
  · rfl
  · decide

/-- C1 (amended): when a record attribute and an inherited context attribute
share a name, the Message's attribute map holds the context attribute's value
(the value of the last context emission of that name): context values are
serialized after the event-local ones and the later insertion replaces the
earlier. -/
theorem c1_context_wins (now : Int) (record : Record) (values : OwnedKVList)
    (k : String) (v : AttributeValue)
    (h1 : noFail record.kvItems = true) (h2 : noFail values.items = true)
    (h3 : lastEmit values.items k = some v) :
    ∃ m, create_dtrace_message now record values = some m ∧
      m.kv.lookup k = some v.attrJson := by
  have hs1 := serializeKV_of_noFail record.kvItems Serializer.defaultS h1
  have hs2 : serializeKV values.items
      (Serializer.mk (applyItems record.kvItems JsonMap.default)) =
      some (Except.ok (Serializer.mk
        (applyItems values.items (applyItems record.kvItems JsonMap.default)))) :=
    serializeKV_of_noFail values.items
      (Serializer.mk (applyItems record.kvItems JsonMap.default)) h2
  have hall : serializeAll record values = some (Except.ok (Serializer.mk
      (applyItems values.items (applyItems record.kvItems JsonMap.default)))) := by
    simp only [serializeAll, Serializer.defaultS] at hs1 ⊢
    rw [hs1]
    exact hs2
  refine ⟨Message.mk (Location.mk record.module record.file record.line)
    (Level.as_str record.level) now record.msg
    (applyItems values.items (applyItems record.kvItems JsonMap.default)), ?_, ?_⟩
  · simp [create_dtrace_message, hall]
  · show (applyItems values.items (applyItems record.kvItems JsonMap.default)).lookup k =
      some v.attrJson
    rw [lookup_applyItems, h3]

/-- C1 witness for the amended theorem, at a concrete duplicated key. -/
theorem c1_context_wins_witness :
    ∃ m, create_dtrace_message 0
        (Record.mk "m" "f" 1 Level.warning "a message"
          [KVItem.kv "some-key" (AttributeValue.typed (TypedVal.i32 2))])
        (OwnedKVList.mk
          [KVItem.kv "some-key" (AttributeValue.typed (TypedVal.strV "ctx"))]) =
        some m ∧
      m.kv.lookup "some-key" =
        some (AttributeValue.attrJson (AttributeValue.typed (TypedVal.strV "ctx"))) :=
  c1_context_wins 0
    (Record.mk "m" "f" 1 Level.warning "a message"
      [KVItem.kv "some-key" (AttributeValue.typed (TypedVal.i32 2))])
    (OwnedKVList.mk
      [KVItem.kv "some-key" (AttributeValue.typed (TypedVal.strV "ctx"))])
    "some-key" (AttributeValue.typed (TypedVal.strV "ctx")) rfl rfl rfl

/-- C2: when the serialization chain fails with error `e`, `create_dtrace_message`
still returns a Message, and its kv field is exactly the single-entry map
mapping "err" to the rendered description of `e`; every previously accumulated
entry is discarded. -/
theorem c2_err_fallback (now : Int) (record : Record) (values : OwnedKVList)
    (e : SlogError) (h : serializeAll record values = some (Except.error e)) :
    create_dtrace_message now record values =
      some (Message.mk (Location.mk record.module record.file record.line)
        (Level.as_str record.level) now record.msg (errMap e)) ∧
    errMap e = JsonMap.mk [("err", JsonValue.str e.description)] := by
  constructor
  · simp [create_dtrace_message, h]
  · rfl

/-- C2 witness: a record whose key-value source emits one pair and then fails;
the message still materializes and its kv is the single err entry. -/
theorem c2_err_fallback_witness :
    create_dtrace_message 0
      (Record.mk "m" "f" 1 Level.info "hello"
        [KVItem.kv "a" (AttributeValue.typed (TypedVal.u8 3)),
         KVItem.fail (SlogError.mk "boom")])
      (OwnedKVList.mk []) =
      some (Message.mk (Location.mk "m" "f" 1) "INFO" 0 "hello"
        (errMap (SlogError.mk "boom"))) :=
  (c2_err_fallback 0
    (Record.mk "m" "f" 1 Level.info "hello"
      [KVItem.kv "a" (AttributeValue.typed (TypedVal.u8 3)),
       KVItem.fail (SlogError.mk "boom")])
    (OwnedKVList.mk []) (SlogError.mk "boom") rfl).1

/-- C3: a log call dispatches to exactly the channel matching the record's own
level: the fired payloads are exactly one payload on that channel when it is
enabled, and none at all otherwise — no other channel ever fires for the
record. -/
theorem c3_single_channel (enabled : Channel → Bool) (now : Int)
    (record : Record) (values : OwnedKVList) :
    ∃ out msg, Dtrace.log Dtrace.mk enabled now record values = some out ∧
      create_dtrace_message now record values = some msg ∧
      out.fired = (if enabled (channelOf record.level) = true
        then [(channelOf record.level, msg)] else []) := by
  obtain ⟨msg, hmsg, hlog⟩ := log_eq Dtrace.mk enabled now record values
  exact ⟨_, msg, hlog, hmsg, rfl⟩

/-- C4: when the channel of the record's level is disabled, the log call fires
nothing and the deferred builder closure is never invoked: zero calls to
`create_dtrace_message`, no Message constructed. -/
theorem c4_disabled_no_message (enabled : Channel → Bool) (now : Int)
    (record : Record) (values : OwnedKVList)
    (h : enabled (channelOf record.level) = false) :
    Dtrace.log Dtrace.mk enabled now record values =
      some (LogOutput.mk [] 0 (Except.ok ())) := by
  obtain ⟨msg, hmsg, hlog⟩ := log_eq Dtrace.mk enabled now record values
  rw [hlog]
  simp [h]

/-- C4 witness: with every channel disabled, a concrete log call does nothing
and runs the builder zero times. -/
theorem c4_disabled_no_message_witness :
    Dtrace.log Dtrace.mk (fun _ => false) 0
      (Record.mk "m" "f" 1 Level.debug "hello" []) (OwnedKVList.mk []) =
      some (LogOutput.mk [] 0 (Except.ok ())) :=
  c4_disabled_no_message (fun _ => false) 0
    (Record.mk "m" "f" 1 Level.debug "hello" []) (OwnedKVList.mk []) rfl

/-- C5: the level field of the built Message is `record.level().as_str()`, which
is always one of the six strings TRACE, DEBUG, INFO, WARN, ERROR, CRITICAL. -/
theorem c5_level_strings (now : Int) (record : Record) (values : OwnedKVList)
    (m : Message) (h : create_dtrace_message now record values = some m) :
    m.level = Level.as_str record.level ∧
    (m.level = "TRACE" ∨ m.level = "DEBUG" ∨ m.level = "INFO" ∨
     m.level = "WARN" ∨ m.level = "ERROR" ∨ m.level = "CRITICAL") := by
  obtain ⟨m2, hm2, hloc, hlev, htime, hmtext⟩ := create_isSome now record values
  have hmm : m = m2 := Option.some.inj (h.symm.trans hm2)
  subst hmm
  refine ⟨hlev, ?_⟩
  rw [hlev]
  cases record.level <;> simp [Level.as_str]

/-- C5 witness at a concrete critical-level record. -/
theorem c5_level_strings_witness :
    (Message.mk (Location.mk "m" "f" 1) "CRITICAL" 0 "x" JsonMap.default).level =
      Level.as_str Level.critical ∧
    ((Message.mk (Location.mk "m" "f" 1) "CRITICAL" 0 "x" JsonMap.default).level = "TRACE" ∨
     (Message.mk (Location.mk "m" "f" 1) "CRITICAL" 0 "x" JsonMap.default).level = "DEBUG" ∨
     (Message.mk (Location.mk "m" "f" 1) "CRITICAL" 0 "x" JsonMap.default).level = "INFO" ∨
     (Message.mk (Location.mk "m" "f" 1) "CRITICAL" 0 "x" JsonMap.default).level = "WARN" ∨
     (Message.mk (Location.mk "m" "f" 1) "CRITICAL" 0 "x" JsonMap.default).level = "ERROR" ∨
     (Message.mk (Location.mk "m" "f" 1) "CRITICAL" 0 "x" JsonMap.default).level = "CRITICAL") :=
  c5_level_strings 0 (Record.mk "m" "f" 1 Level.critical "x" []) (OwnedKVList.mk [])
    (Message.mk (Location.mk "m" "f" 1) "CRITICAL" 0 "x" JsonMap.default) rfl

/-- C6 counterexample: the claim excepts only the unit and none variants, but a
64-bit float NaN payload also serializes to JSON null, so decoding cannot yield
a value equal to the original float. -/
theorem c6_counterexample :
    TypedVal.toJsonValue (TypedVal.f64 F64Val.nan) = JsonValue.null ∧
    jsonSem (TypedVal.toJsonValue (TypedVal.f64 F64Val.nan)) ≠
      some (TypedVal.specSem (TypedVal.f64 F64Val.nan)) ∧
    AttributeValue.attrJson AttributeValue.noneV = JsonValue.null := by
  refine ⟨rfl, ?_, rfl⟩
  decide

/-- C6 (amended): every integer of every width, boolean, string, and finite
float round-trips — the decoded semantic value equals the original's — while
unit and none both serialize to JSON null (indistinguishable); non-finite floats
(NaN and the infinities) are a further exception the claim missed: they also
serialize to null. -/
theorem c6_round_trip (v : TypedVal) (h : TypedVal.floatFinite v = true) :
    jsonSem (TypedVal.toJsonValue v) = some (TypedVal.specSem v) ∧
    AttributeValue.attrJson AttributeValue.unitV = JsonValue.null ∧
    AttributeValue.attrJson AttributeValue.noneV = JsonValue.null := by
  refine ⟨?_, rfl, rfl⟩
  cases v with
  | u8 n => rfl
  | u16 n => rfl
  | u32 n => rfl
  | u64 n => rfl
  | usize n => rfl
  | i8 n =>
    by_cases hn : n < 0
    · simp [TypedVal.toJsonValue, jsonSem, JNumber.toRat, TypedVal.specSem, hn]
    · simp [TypedVal.toJsonValue, jsonSem, JNumber.toRat, TypedVal.specSem, hn]
      exact_mod_cast Int.toNat_of_nonneg (le_of_not_lt hn)
  | i16 n =>
    by_cases hn : n < 0
    · simp [TypedVal.toJsonValue, jsonSem, JNumber.toRat, TypedVal.specSem, hn]
    · simp [TypedVal.toJsonValue, jsonSem, JNumber.toRat, TypedVal.specSem, hn]
      exact_mod_cast Int.toNat_of_nonneg (le_of_not_lt hn)
  | i32 n =>
    by_cases hn : n < 0
    · simp [TypedVal.toJsonValue, jsonSem, JNumber.toRat, TypedVal.specSem, hn]
    · simp [TypedVal.toJsonValue, jsonSem, JNumber.toRat, TypedVal.specSem, hn]
      exact_mod_cast Int.toNat_of_nonneg (le_of_not_lt hn)
  | i64 n =>
    by_cases hn : n < 0
    · simp [TypedVal.toJsonValue, jsonSem, JNumber.toRat, TypedVal.specSem, hn]
    · simp [TypedVal.toJsonValue, jsonSem, JNumber.toRat, TypedVal.specSem, hn]
      exact_mod_cast Int.toNat_of_nonneg (le_of_not_lt hn)
  | isize n =>
    by_cases hn : n < 0
    · simp [TypedVal.toJsonValue, jsonSem, JNumber.toRat, TypedVal.specSem, hn]
    · simp [TypedVal.toJsonValue, jsonSem, JNumber.toRat, TypedVal.specSem, hn]
      exact_mod_cast Int.toNat_of_nonneg (le_of_not_lt hn)
  | boolV b => rfl
  | f32 fv =>
    cases fv with
    | finite q => rfl
    | nan => simp [TypedVal.floatFinite] at h
    | posInf => simp [TypedVal.floatFinite] at h
    | negInf => simp [TypedVal.floatFinite] at h
  | f64 fv =>
    cases fv with
    | finite q => rfl
    | nan => simp [TypedVal.floatFinite] at h
    | posInf => simp [TypedVal.floatFinite] at h
    | negInf => simp [TypedVal.floatFinite] at h
  | strV s => rfl

/-- C6 witness at a concrete negative 64-bit integer. -/
theorem c6_round_trip_witness :
    jsonSem (TypedVal.toJsonValue (TypedVal.i64 (-7))) =
      some (TypedVal.specSem (TypedVal.i64 (-7))) ∧
    AttributeValue.attrJson AttributeValue.unitV = JsonValue.null ∧
    AttributeValue.attrJson AttributeValue.noneV = JsonValue.null :=
  c6_round_trip (TypedVal.i64 (-7)) rfl

/-- C7: for every registration outcome, including failure, `Dtrace::new` returns
a drain together with the outcome value: failure surfaces as Failed(reason), and
the returned drain remains usable — logging through it still succeeds. -/
theorem c7_registration_surfaced (r : Except String Unit) :
    (Dtrace.new r).2 = (match r with
      | Except.ok _ => ProbeRegistration.Success
      | Except.error e => ProbeRegistration.Failed e) ∧
    ∀ (enabled : Channel → Bool) (now : Int) (record : Record)
      (values : OwnedKVList),
      ∃ out, Dtrace.log (Dtrace.new r).1 enabled now record values = some out ∧
        out.result = Except.ok () := by
  constructor
  · cases r <;> rfl
  · intro enabled now record values
    obtain ⟨msg, hmsg, hlog⟩ := log_eq (Dtrace.new r).1 enabled now record values
    exact ⟨_, hlog, rfl⟩

/-- C8: `with_drain(D)` pairs the given drain with a fresh Dtrace drain inside a
`slog::Duplicate` and returns the same registration outcome `Dtrace::new`
produced; the duplicating sink's log delivers every event to both sub-drains as
independent side effects of the same input. -/
theorem c8_with_drain_duplicates (D : Type) (drain : D) (r : Except String Unit)
    (R : Type) (logA : D → Record → OwnedKVList → R) (enabled : Channel → Bool)
    (now : Int) (record : Record) (values : OwnedKVList) :
    with_drain drain r = (Duplicate.mk drain (Dtrace.new r).1, (Dtrace.new r).2) ∧
    Duplicate.logWith (with_drain drain r).1 logA enabled now record values =
      (logA drain record values,
        Dtrace.log (Dtrace.new r).1 enabled now record values) ∧
    ∃ out, Dtrace.log (Dtrace.new r).1 enabled now record values = some out ∧
      out.result = Except.ok () := by
  refine ⟨rfl, rfl, ?_⟩
  obtain ⟨msg, hmsg, hlog⟩ := log_eq (Dtrace.new r).1 enabled now record values
  exact ⟨_, hlog, rfl⟩

/-- C9: the log operation of the Dtrace drain always returns Ok(()) — it never
panics and never returns an error, and its error type `slog::Never` is
uninhabited, so no fault can reach the caller's control flow. -/
theorem c9_log_never_fails (enabled : Channel → Bool) (now : Int)
    (record : Record) (values : OwnedKVList) :
    (∃ out, Dtrace.log Dtrace.mk enabled now record values = some out ∧
      out.result = Except.ok ()) ∧ IsEmpty SlogNever := by
  obtain ⟨msg, hmsg, hlog⟩ := log_eq Dtrace.mk enabled now record values
  exact ⟨⟨_, hlog, rfl⟩, ⟨fun ev => nomatch ev⟩⟩

/-- C10: the generic `Serializer::emit` always returns Ok after inserting
exactly the given key, so the `unwrap` inside every `impl_emit!`-generated typed
method never panics and every typed emission succeeds unconditionally. -/
theorem c10_emit_always_ok (s : Serializer) (key : String) (tv : TypedVal) :
    Serializer.emit s key tv.toJsonValue =
      (Serializer.mk (s.map.insert key tv.toJsonValue), Except.ok ()) ∧
    Serializer.emitTyped s key tv =
      some (Serializer.mk (s.map.insert key tv.toJsonValue), Except.ok ()) :=
  ⟨rfl, rfl⟩

end SlogDtrace
